import Mathlib

/-!
Shallow embedding of the ask-bonk run tracker and orchestrator
(`src/agent.ts`).  The `RepoAgent` durable object is modelled as a pure
state-passing machine: each operation takes the current state plus the
values the JavaScript runtime would supply (the current wall clock, the
outcomes of remote calls) and returns the new state together with the
side effects it performs (scheduled triggers, posted comments).
JavaScript `Record<string, T>` objects are modelled as association lists
in insertion order, matching `Object.entries` iteration order for
string keys; spread-overwrite keeps an existing key at its original
position, and `delete` removes the entry.  Notifier calls are recorded
as effects (the tracker logs and swallows their failures, so the
user-visible behaviour is the attempt itself).
-/

namespace AskBonk

/-- Poll interval in seconds (`POLL_INTERVAL_SECONDS` in agent.ts). -/
def POLL_INTERVAL_SECONDS : Nat := 30

/-- Maximum tracking time in milliseconds (`MAX_TRACKING_TIME_MS`). -/
def MAX_TRACKING_TIME_MS : Nat := 30 * 60 * 1000

/-- Cleanup window in seconds (`PENDING_WORKFLOW_CLEANUP_SECONDS`). -/
def PENDING_WORKFLOW_CLEANUP_SECONDS : Nat := 600

/-- Payload carried by a scheduled status check (`CheckStatusPayload`). -/
structure CheckStatusPayload where
  runId : Nat
  runUrl : String
  issueNumber : Nat
  createdAt : Nat
  deriving Repr, DecidableEq

/-- A pending workflow correlation entry (`PendingWorkflow`). -/
structure PendingWorkflow where
  issueNumber : Nat
  actor : String
  timestamp : String
  createdAt : Nat
  deriving Repr, DecidableEq

/-- Durable state of one `RepoAgent` (`RepoAgentState`): the installation
id and the pending-workflow map keyed by `actor:timestamp`, in insertion
order. -/
structure RepoAgentState where
  installationId : Nat
  pendingWorkflows : List (String × PendingWorkflow)
  deriving Repr, DecidableEq

/-- JavaScript spread-with-computed-key `{...obj, [key]: v}`: if the key
is already present its value is replaced in place (position kept),
otherwise the entry is appended. -/
def recordSet (m : List (String × PendingWorkflow)) (k : String) (v : PendingWorkflow) :
    List (String × PendingWorkflow) :=
  if m.any (fun e => e.1 = k) then
    m.map (fun e => if e.1 = k then (k, v) else e)
  else
    m ++ [(k, v)]

/-- The `omitKey` helper of agent.ts: copy the record without the key. -/
def omitKey (m : List (String × PendingWorkflow)) (k : String) :
    List (String × PendingWorkflow) :=
  m.filter (fun e => e.1 ≠ k)

/-- JavaScript property read `obj[k]` on the pending map. -/
def recordGet (m : List (String × PendingWorkflow)) (k : String) : Option PendingWorkflow :=
  (m.find? (fun e => decide (e.1 = k))).map (fun e => e.2)

/-- The correlation key `actor:timestamp` built in `addPendingWorkflow`. -/
def pendingKey (actor timestamp : String) : String :=
  actor ++ ":" ++ timestamp

/-- A scheduled cleanup trigger produced by `addPendingWorkflow`: delay in
seconds and the exact key the cleanup will test. -/
structure ScheduledCleanup where
  delaySeconds : Nat
  key : String
  deriving Repr, DecidableEq

/-- The `setInstallationId` operation. -/
def setInstallationId (st : RepoAgentState) (id : Nat) : RepoAgentState :=
  { st with installationId := id }

/-- The `addPendingWorkflow` operation: insert the entry under
`actor:timestamp` (last write wins) and unconditionally schedule one
cleanup trigger for that key after the fixed window.  `now` is the value
`Date.now()` returns during the call. -/
def addPendingWorkflow (st : RepoAgentState) (actor timestamp : String)
    (issueNumber now : Nat) : RepoAgentState × List ScheduledCleanup :=
  let key := pendingKey actor timestamp
  let pending : PendingWorkflow :=
    { issueNumber := issueNumber, actor := actor, timestamp := timestamp, createdAt := now }
  ({ st with pendingWorkflows := recordSet st.pendingWorkflows key pending },
   [{ delaySeconds := PENDING_WORKFLOW_CLEANUP_SECONDS, key := key }])

/-- The `consumePendingWorkflow` operation: find the first entry (in
insertion order) whose actor matches, remove it and return it; return
`none` and leave the state unchanged when no entry matches. -/
def consumePendingWorkflow (st : RepoAgentState) (actor : String) :
    Option PendingWorkflow × RepoAgentState :=
  match st.pendingWorkflows.find? (fun e => decide (e.2.actor = actor)) with
  | none => (none, st)
  | some e =>
      (some e.2, { st with pendingWorkflows := omitKey st.pendingWorkflows e.1 })

/-- The `cleanupPendingWorkflow` operation: remove the entry under the
scheduled key if it is still present, otherwise do nothing. -/
def cleanupPendingWorkflow (st : RepoAgentState) (key : String) : RepoAgentState :=
  if (recordGet st.pendingWorkflows key).isSome then
    { st with pendingWorkflows := omitKey st.pendingWorkflows key }
  else
    st

/-- Result of `getWorkflowRunStatus`: the run status string and the
nullable conclusion string. -/
structure WorkflowRunStatus where
  status : String
  conclusion : Option String
  deriving Repr, DecidableEq

/-- Environment of one `checkWorkflowStatus` invocation: the current
wall clock, whether `createOctokit` succeeds, and the outcome of the
status query (`none` models the query throwing). -/
structure PollEnv where
  now : Nat
  octokitOk : Bool
  statusResult : Option WorkflowRunStatus
  deriving Repr, DecidableEq

/-- The status message selected in `postFailureComment` by conclusion. -/
def failureStatusMessage (conclusion : Option String) : String :=
  if conclusion = some "timeout" then
    "Bonk workflow timed out."
  else if conclusion = some "failure" then
    "Bonk workflow failed. Check the logs for details."
  else if conclusion = some "cancelled" then
    "Bonk workflow was cancelled."
  else
    "Bonk workflow finished with status: " ++ conclusion.getD "unknown"

/-- The full comment body posted by `postFailureComment`. -/
def failureCommentBody (runUrl : String) (conclusion : Option String) : String :=
  failureStatusMessage conclusion ++ "\n\n[View workflow run](" ++ runUrl ++ ")"

/-- Observable result of one `checkWorkflowStatus` invocation: the
notification bodies it posts and the polls it schedules (delay in
seconds with the payload passed along). -/
structure PollResult where
  notifications : List String
  scheduled : List (Nat × CheckStatusPayload)
  deriving Repr, DecidableEq

/-- The `checkWorkflowStatus` poll handler, translated branch by branch
from agent.ts: timeout check first, then client creation, then the
status query, then the completed/not-completed split. -/
def checkWorkflowStatus (payload : CheckStatusPayload) (env : PollEnv) : PollResult :=
  let elapsed : Int := (env.now : Int) - (payload.createdAt : Int)
  if elapsed > (MAX_TRACKING_TIME_MS : Int) then
    { notifications := [failureCommentBody payload.runUrl (some "timeout")]
      scheduled := [] }
  else if env.octokitOk = false then
    { notifications := [], scheduled := [(POLL_INTERVAL_SECONDS, payload)] }
  else
    match env.statusResult with
    | none =>
        { notifications := [], scheduled := [(POLL_INTERVAL_SECONDS, payload)] }
    | some status =>
        if status.status = "completed" then
          if status.conclusion ≠ some "success" then
            { notifications := [failureCommentBody payload.runUrl status.conclusion]
              scheduled := [] }
          else
            { notifications := [], scheduled := [] }
        else
          { notifications := [], scheduled := [(POLL_INTERVAL_SECONDS, payload)] }

/-- Finding the first actor match walks the entries in insertion order:
with no match in the prefix, the first matching entry is returned. -/
lemma find?_actor_middle (pre post : List (String × PendingWorkflow)) (k : String)
    (p : PendingWorkflow) (actor : String) (hp : p.actor = actor)
    (hpre : ∀ e ∈ pre, e.2.actor ≠ actor) :
    (pre ++ (k, p) :: post).find? (fun e => decide (e.2.actor = actor)) = some (k, p) := by
  induction pre with
  | nil =>
      rw [List.nil_append, List.find?_cons_of_pos _ (by simpa using hp)]
  | cons a t ih =>
      have ha : ¬ (a.2.actor = actor) := hpre a (List.mem_cons_self a t)
      rw [List.cons_append, List.find?_cons_of_neg _ (by simpa using ha)]
      exact ih (fun e he => hpre e (List.mem_cons_of_mem a he))

/-- Removing a key that occurs once, with all other keys distinct from
it, deletes exactly that entry. -/
lemma omitKey_middle (pre post : List (String × PendingWorkflow)) (k : String)
    (p : PendingWorkflow) (h : ∀ e ∈ pre ++ post, e.1 ≠ k) :
    omitKey (pre ++ (k, p) :: post) k = pre ++ post := by
  have hpre : ∀ e ∈ pre, e.1 ≠ k := fun e he => h e (List.mem_append_left post he)
  have hpost : ∀ e ∈ post, e.1 ≠ k := fun e he => h e (List.mem_append_right pre he)
  have h1 : List.filter (fun e => !decide (e.1 = k)) pre = pre :=
    List.filter_eq_self.mpr (fun e he => by simpa using hpre e he)
  have h2 : List.filter (fun e => !decide (e.1 = k)) post = post :=
    List.filter_eq_self.mpr (fun e he => by simpa using hpost e he)
  simp only [omitKey, List.filter_append, List.filter_cons, decide_not]
  simp [h1, h2]

/-- Finding the written key in the replace branch of the write returns
the new value. -/
lemma find?_map_replace (m : List (String × PendingWorkflow)) (k : String)
    (v : PendingWorkflow) (hany : (m.any fun e => decide (e.1 = k)) = true) :
    (m.map (fun e => if e.1 = k then (k, v) else e)).find?
      (fun e => decide (e.1 = k)) = some (k, v) := by
  induction m with
  | nil => simp at hany
  | cons a t ih =>
      by_cases hak : a.1 = k
      · rw [List.map_cons, if_pos hak, List.find?_cons_of_pos _ (by simp)]
      · rw [List.map_cons, if_neg hak, List.find?_cons_of_neg _ (by simpa using hak)]
        apply ih
        simp only [List.any_cons, Bool.or_eq_true] at hany
        rcases hany with h | h
        · exact absurd (by simpa using h) hak
        · exact h

/-- Finding the written key in the append branch of the write returns
the new value. -/
lemma find?_append_new (m : List (String × PendingWorkflow)) (k : String)
    (v : PendingWorkflow) (hany : ¬ (m.any fun e => decide (e.1 = k)) = true) :
    (m ++ [(k, v)]).find? (fun e => decide (e.1 = k)) = some (k, v) := by
  rw [List.find?_append, List.find?_eq_none.mpr, Option.none_or,
    List.find?_cons_of_pos _ (by simp)]
  intro e he hek
  exact hany (List.any_eq_true.mpr ⟨e, he, hek⟩)

/-- Reading back the key just written returns the new value (the
spread-overwrite is last write wins). -/
lemma recordGet_recordSet_self (m : List (String × PendingWorkflow)) (k : String)
    (v : PendingWorkflow) : recordGet (recordSet m k v) k = some v := by
  unfold recordSet recordGet
  split
  · next hany =>
      rw [find?_map_replace m k v hany]
      rfl
  · next hany =>
      rw [find?_append_new m k v hany]
      rfl

/-- Replacing the value under one key leaves lookups of other keys
unchanged. -/
lemma find?_map_replace_other (m : List (String × PendingWorkflow)) (k k' : String)
    (v : PendingWorkflow) (hne : k' ≠ k) :
    (m.map (fun e => if e.1 = k then (k, v) else e)).find?
      (fun e => decide (e.1 = k')) = m.find? (fun e => decide (e.1 = k')) := by
  induction m with
  | nil => rfl
  | cons a t ih =>
      by_cases hak : a.1 = k
      · rw [List.map_cons, if_pos hak,
          List.find?_cons_of_neg _ (by simp; exact fun h => hne h.symm),
          List.find?_cons_of_neg _ (by simp; intro h; exact hne (h ▸ hak)), ih]
      · by_cases hak' : a.1 = k'
        · rw [List.map_cons, if_neg hak,
            List.find?_cons_of_pos _ (by simpa using hak'),
            List.find?_cons_of_pos _ (by simpa using hak')]
        · rw [List.map_cons, if_neg hak,
            List.find?_cons_of_neg _ (by simpa using hak'),
            List.find?_cons_of_neg _ (by simpa using hak'), ih]

/-- Writing one key leaves reads of every other key unchanged. -/
lemma recordGet_recordSet_other (m : List (String × PendingWorkflow)) (k k' : String)
    (v : PendingWorkflow) (hne : k' ≠ k) :
    recordGet (recordSet m k v) k' = recordGet m k' := by
  unfold recordSet recordGet
  split
  · rw [find?_map_replace_other m k k' v hne]
  · rw [List.find?_append]
    cases hf : m.find? (fun e => decide (e.1 = k')) with
    | some e => rfl
    | none =>
        rw [Option.none_or,
          List.find?_cons_of_neg _ (by simp; exact fun h => hne h.symm)]
        rfl

/-- After removing a key, reading it returns nothing. -/
lemma recordGet_omitKey_self (m : List (String × PendingWorkflow)) (k : String) :
    recordGet (omitKey m k) k = none := by
  unfold recordGet omitKey
  rw [List.find?_eq_none.mpr ?hnone]
  · rfl
  case hnone =>
    intro e he hek
    have h2 := List.of_mem_filter he
    simp at h2 hek
    exact h2 hek

/-- Membership in the written record comes from the old record or from
the written key. -/
lemma mem_recordSet (m : List (String × PendingWorkflow)) (k : String)
    (v : PendingWorkflow) (e : String × PendingWorkflow) (he : e ∈ recordSet m k v) :
    e ∈ m ∨ e.1 = k := by
  unfold recordSet at he
  split at he
  · rcases List.mem_map.mp he with ⟨a, ha, hfa⟩
    by_cases hak : a.1 = k
    · right
      rw [if_pos hak] at hfa
      rw [← hfa]
    · left
      rw [if_neg hak] at hfa
      rwa [← hfa]
  · rcases List.mem_append.mp he with h | h
    · exact Or.inl h
    · right
      rcases List.mem_singleton.mp h with rfl
      rfl

/-- Entries under other keys survive a write. -/
lemma mem_recordSet_of_mem (m : List (String × PendingWorkflow)) (k : String)
    (v : PendingWorkflow) (e : String × PendingWorkflow) (he : e ∈ m) (hne : e.1 ≠ k) :
    e ∈ recordSet m k v := by
  unfold recordSet
  split
  · have : (if e.1 = k then (k, v) else e) ∈ m.map (fun a => if a.1 = k then (k, v) else a) :=
      List.mem_map_of_mem _ he
    rwa [if_neg hne] at this
  · exact List.mem_append_left _ he

/-- Entries under other keys survive a removal. -/
lemma mem_omitKey_of_mem (m : List (String × PendingWorkflow)) (k : String)
    (e : String × PendingWorkflow) (he : e ∈ m) (hne : e.1 ≠ k) :
    e ∈ omitKey m k :=
  List.mem_filter.mpr ⟨he, by simpa using hne⟩

/-- Result of one `runOpencodeSandbox` invocation (`SandboxResult`), as
used by `processRequest`: the response text, optionally the changed
files, the session link, the new branch name if one was produced and the
summary (empty string models a missing/empty summary, which is falsy in
JavaScript). -/
structure SandboxResult where
  response : String
  changedFiles : Option (List String)
  sessionLink : String
  newBranch : Option String
  summary : String
  deriving Repr, DecidableEq

/-- The slice of `fetchPullRequest` data `processRequest` inspects. -/
structure PRData where
  headRepositoryNameWithOwner : String
  baseRepositoryNameWithOwner : String
  headRefName : String
  headRefOid : String
  deriving Repr, DecidableEq

/-- Modelled from the spec: `formatResponse` lives in `src/events.ts`,
which is not part of the sources here; the spec only says the
placeholder is finalized with "the formatted result", so the formatter
is modelled as a function of the response text, the changed files, the
session link and the model string.  No claim depends on its content. -/
def formatResponse (response : String) (changedFiles : Option (List String))
    (sessionLink : String) (modelString : String) : String :=
  response ++ "\n\n" ++ String.intercalate "\n" (changedFiles.getD []) ++
    "\n\n" ++ sessionLink ++ "\n\n" ++ modelString

/-- Side effects `processRequest` performs, in order. -/
inductive OrchEffect where
  | createComment (issueNumber : Nat) (body : String)
  | updateComment (commentId : Nat) (body : String)
  | sandboxInvocation (attempt : Nat)
  | sleepMs (ms : Nat)
  | createPullRequest (head base title body : String)
  deriving Repr, DecidableEq

/-- The context record `processRequest` receives (the fields it uses). -/
structure OrchParams where
  owner : String
  repo : String
  issueNumber : Nat
  actor : String
  isPullRequest : Bool
  defaultBranch : String
  headBranch : Option String
  deriving Repr, DecidableEq

/-- Outcomes of the remote calls one `processRequest` run performs:
the permission check result, the id the placeholder comment gets, and
for each fallible step either its value or the message of the exception
it throws.  `sandbox` gives the outcome of the agent invocation on each
attempt number. -/
structure OrchEnv where
  canWrite : Bool
  responseCommentId : Nat
  repoPrivate : Except String Bool
  modelString : Except String String
  token : Except String String
  processedPrompt : Except String String
  prData : Except String PRData
  issueFetchOk : Except String Unit
  sandbox : Nat → Except String SandboxResult
  createPRNumber : Except String Nat

/-- Retry bound of the sandbox loop (`maxRetries` in `processRequest`). -/
def maxRetries : Nat := 3

/-- The sandbox retry loop of `processRequest`, started at attempt 1:
invoke the sandbox; on success stop with the result; on an exception
record it as the last error and, when attempts remain, sleep 15 seconds
and retry.  Returns the effects performed and either the result or the
last error (`lastError` non-null after the loop). -/
def sandboxRetryLoop (sandbox : Nat → Except String SandboxResult) (attempt : Nat) :
    List OrchEffect × Except String SandboxResult :=
  match sandbox attempt with
  | .ok r => ([OrchEffect.sandboxInvocation attempt], .ok r)
  | .error e =>
      if h : attempt < maxRetries then
        let rest := sandboxRetryLoop sandbox (attempt + 1)
        (OrchEffect.sandboxInvocation attempt :: OrchEffect.sleepMs 15000 :: rest.1, rest.2)
      else
        ([OrchEffect.sandboxInvocation attempt], .error e)
  termination_by maxRetries - attempt

/-- JavaScript truthiness of `result.changedFiles && result.changedFiles.length > 0`. -/
def changedFilesTruthy (changedFiles : Option (List String)) : Bool :=
  match changedFiles with
  | none => false
  | some fs => fs.length > 0

/-- JavaScript truthiness of the `result.newBranch` check (null,
undefined and the empty string are falsy). -/
def newBranchTruthy (newBranch : Option String) : Bool :=
  match newBranch with
  | none => false
  | some b => b ≠ ""

/-- Tail of the `try` block of `processRequest` after the issue/PR
context is built: the sandbox retry loop, the failure or result
finalization, and the conditional pull-request creation.  Returns the
effects performed and `some msg` when an exception carrying `msg`
escapes to the outer `catch`. -/
def afterContextStep (p : OrchParams) (env : OrchEnv) (cid : Nat) (modelString : String) :
    List OrchEffect × Option String :=
  let loop := sandboxRetryLoop env.sandbox 1
  match loop.2 with
  | .error lastError =>
      (loop.1 ++
        [OrchEffect.updateComment cid
          ("Bonk failed\n\n```\n" ++ lastError ++ "\n```")], none)
  | .ok result =>
      let response :=
        formatResponse result.response result.changedFiles result.sessionLink modelString
      let effs := loop.1 ++ [OrchEffect.updateComment cid response]
      if p.isPullRequest = false ∧ changedFilesTruthy result.changedFiles = true ∧
          newBranchTruthy result.newBranch = true then
        match env.createPRNumber with
        | .error e => (effs, some e)
        | .ok prNumber =>
            let prLink := "https://github.com/" ++ p.owner ++ "/" ++ p.repo ++
              "/pull/" ++ toString prNumber
            (effs ++
              [OrchEffect.createPullRequest (result.newBranch.getD "") p.defaultBranch
                (if result.summary = "" then
                  "Fix issue #" ++ toString p.issueNumber
                else result.summary)
                (result.response ++ "\n\nCloses #" ++ toString p.issueNumber),
               OrchEffect.updateComment cid ("Bonk created PR: " ++ prLink)], none)
      else
        (effs, none)

/-- Body of the `try` block of `processRequest` (everything after the
placeholder comment is created): returns the effects performed and
`some msg` when an exception carrying `msg` escapes to the outer
`catch`, `none` when the body returns normally. -/
def processRequestBody (p : OrchParams) (env : OrchEnv) (cid : Nat) :
    List OrchEffect × Option String :=
  match env.repoPrivate with
  | .error e => ([], some e)
  | .ok _repoPrivate =>
  match env.modelString with
  | .error e => ([], some e)
  | .ok modelString =>
  match env.token with
  | .error e => ([], some e)
  | .ok _token =>
  match env.processedPrompt with
  | .error e => ([], some e)
  | .ok _prompt =>
  if p.isPullRequest then
    match env.prData with
    | .error e => ([], some e)
    | .ok prData =>
        if prData.headRepositoryNameWithOwner ≠ prData.baseRepositoryNameWithOwner then
          ([OrchEffect.updateComment cid "Fork PRs are not supported."], none)
        else
          afterContextStep p env cid modelString
  else
    match env.issueFetchOk with
    | .error e => ([], some e)
    | .ok _ => afterContextStep p env cid modelString

/-- The `processRequest` orchestrator: drop the request silently when
the actor lacks write access; otherwise create the placeholder comment,
run the body, and on an escaping exception finalize the placeholder
with the error message (the outer `catch`).  The embedding starts at
the permission check: `createOctokit`/`createGraphQL` failures occur
before any user-visible effect. -/
def processRequest (p : OrchParams) (env : OrchEnv) : List OrchEffect :=
  if env.canWrite = false then
    []
  else
    let cid := env.responseCommentId
    let body := processRequestBody p env cid
    OrchEffect.createComment p.issueNumber "Bonk is working on it..." ::
      (match body.2 with
       | none => body.1
       | some err =>
           body.1 ++
             [OrchEffect.updateComment cid ("Bonk failed\n\n```\n" ++ err ++ "\n```")])

/-- Tests whether an effect is a comment creation. -/
def isCreateComment (e : OrchEffect) : Bool :=
  match e with
  | .createComment _ _ => true
  | _ => false

/-- Tests whether an effect is a comment update (a finalization of the
placeholder, since the placeholder id is the only id updated). -/
def isUpdateComment (e : OrchEffect) : Bool :=
  match e with
  | .updateComment _ _ => true
  | _ => false

/-- Tests whether an effect is a sandbox (external agent) invocation. -/
def isSandboxInvocation (e : OrchEffect) : Bool :=
  match e with
  | .sandboxInvocation _ => true
  | _ => false

/-- Tests whether an effect is a pull-request creation. -/
def isCreatePR (e : OrchEffect) : Bool :=
  match e with
  | .createPullRequest _ _ _ _ => true
  | _ => false

/-- Success of every remote step of `processRequest` that precedes the
sandbox retry loop (and, on the pull-request path, a same-repo PR). -/
def preludeOk (p : OrchParams) (env : OrchEnv) : Prop :=
  (∃ b, env.repoPrivate = .ok b) ∧ (∃ m, env.modelString = .ok m) ∧
  (∃ t, env.token = .ok t) ∧ (∃ s, env.processedPrompt = .ok s) ∧
  (if p.isPullRequest then
    ∃ d, env.prData = .ok d ∧
      d.headRepositoryNameWithOwner = d.baseRepositoryNameWithOwner
   else ∃ u, env.issueFetchOk = .ok u)

/-- C3: `consumePendingWorkflow` returns the first pending entry in
insertion order whose actor matches and removes exactly that entry;
with no matching entry it returns `none` and leaves the state
unchanged; registering a single entry for an actor and consuming twice
returns the issue the first time (emptying the map) and `none` the
second time. -/
theorem consumePendingWorkflow_spec (st : RepoAgentState) (actor : String) :
    (st.pendingWorkflows.find? (fun e => decide (e.2.actor = actor)) = none →
      consumePendingWorkflow st actor = (none, st)) ∧
    (∀ pre k p post,
      st.pendingWorkflows = pre ++ (k, p) :: post →
      p.actor = actor →
      (∀ e ∈ pre, e.2.actor ≠ actor) →
      (∀ e ∈ pre ++ post, e.1 ≠ k) →
      consumePendingWorkflow st actor =
        (some p, { st with pendingWorkflows := pre ++ post })) ∧
    (∀ instId ts issueNumber now,
      consumePendingWorkflow
          (addPendingWorkflow ⟨instId, []⟩ actor ts issueNumber now).1 actor =
        (some ⟨issueNumber, actor, ts, now⟩, ⟨instId, []⟩) ∧
      consumePendingWorkflow (⟨instId, []⟩ : RepoAgentState) actor =
        (none, (⟨instId, []⟩ : RepoAgentState))) := by
  refine ⟨?_, ?_, ?_⟩
  · intro h
    unfold consumePendingWorkflow
    rw [h]
  · intro pre k p post hst hp hpre hkeys
    unfold consumePendingWorkflow
    rw [hst, find?_actor_middle pre post k p actor hp hpre]
    show (some p, { st with pendingWorkflows := omitKey (pre ++ (k, p) :: post) k }) =
      (some p, { st with pendingWorkflows := pre ++ post })
    rw [omitKey_middle pre post k p hkeys]
  · intro instId ts issueNumber now
    constructor
    · simp [consumePendingWorkflow, addPendingWorkflow, recordSet, omitKey,
        List.find?_cons]
    · rfl

/-- Witness for C3: a map holding entries for bob then alice; consuming
alice returns the alice entry and keeps bob; consuming from an empty
map returns nothing; register-then-consume round-trips. -/
theorem consumePendingWorkflow_spec_witness :
    consumePendingWorkflow
        ⟨0, [("bob:t0", ⟨1, "bob", "t0", 5⟩), ("alice:t1", ⟨42, "alice", "t1", 10⟩)]⟩
        "alice" =
      (some ⟨42, "alice", "t1", 10⟩, ⟨0, [("bob:t0", ⟨1, "bob", "t0", 5⟩)]⟩) ∧
    consumePendingWorkflow (⟨0, []⟩ : RepoAgentState) "carol" = (none, ⟨0, []⟩) ∧
    consumePendingWorkflow
        (addPendingWorkflow ⟨0, []⟩ "alice" "2024-01-01T00:00:00Z" 42 100).1 "alice" =
      (some ⟨42, "alice", "2024-01-01T00:00:00Z", 100⟩, ⟨0, []⟩) :=
  ⟨(consumePendingWorkflow_spec
      ⟨0, [("bob:t0", ⟨1, "bob", "t0", 5⟩), ("alice:t1", ⟨42, "alice", "t1", 10⟩)]⟩
      "alice").2.1 [("bob:t0", ⟨1, "bob", "t0", 5⟩)] "alice:t1" ⟨42, "alice", "t1", 10⟩ []
      rfl rfl (by decide) (by decide),
   (consumePendingWorkflow_spec ⟨0, []⟩ "carol").1 rfl,
   ((consumePendingWorkflow_spec ⟨0, []⟩ "alice").2.2 0 "2024-01-01T00:00:00Z" 42 100).1⟩

/-- C4: `addPendingWorkflow` stores the entry under `actor:timestamp`
(overwriting any existing entry under that key, last write wins, with
no error) and unconditionally schedules exactly one cleanup trigger for
that key after the 600-second window; the cleanup removes the entry
when the key is still present and is a no-op otherwise; an entry that
is registered and never consumed is gone after the cleanup fires, and
`consumePendingWorkflow` for that actor then finds nothing. -/
theorem addPendingWorkflow_cleanup_spec (st : RepoAgentState) (actor ts : String)
    (issueNumber now : Nat) :
    (addPendingWorkflow st actor ts issueNumber now).2 =
      [⟨PENDING_WORKFLOW_CLEANUP_SECONDS, pendingKey actor ts⟩] ∧
    recordGet (addPendingWorkflow st actor ts issueNumber now).1.pendingWorkflows
        (pendingKey actor ts) = some ⟨issueNumber, actor, ts, now⟩ ∧
    (∀ k, k ≠ pendingKey actor ts →
      recordGet (addPendingWorkflow st actor ts issueNumber now).1.pendingWorkflows k =
        recordGet st.pendingWorkflows k) ∧
    (∀ st2 key, (recordGet st2.pendingWorkflows key).isSome →
      recordGet (cleanupPendingWorkflow st2 key).pendingWorkflows key = none) ∧
    (∀ st2 key, recordGet st2.pendingWorkflows key = none →
      cleanupPendingWorkflow st2 key = st2) ∧
    ((∀ e ∈ st.pendingWorkflows, e.2.actor ≠ actor) →
      (consumePendingWorkflow
        (cleanupPendingWorkflow (addPendingWorkflow st actor ts issueNumber now).1
          (pendingKey actor ts)) actor).1 = none) := by
  refine ⟨rfl, recordGet_recordSet_self _ _ _, ?_, ?_, ?_, ?_⟩
  · intro k hk
    exact recordGet_recordSet_other _ _ _ _ hk
  · intro st2 key h
    unfold cleanupPendingWorkflow
    rw [if_pos h]
    exact recordGet_omitKey_self _ _
  · intro st2 key h
    unfold cleanupPendingWorkflow
    rw [if_neg]
    simp [h]
  · intro hactors
    have hmem : ∀ e ∈ omitKey (recordSet st.pendingWorkflows (pendingKey actor ts)
        ⟨issueNumber, actor, ts, now⟩) (pendingKey actor ts), e.2.actor ≠ actor := by
      intro e he
      have h1 := List.mem_filter.mp he
      rcases mem_recordSet _ _ _ _ h1.1 with hm | hk
      · exact hactors e hm
      · have h2 := h1.2
        simp at h2
        exact absurd hk h2
    have hfind : (omitKey (recordSet st.pendingWorkflows (pendingKey actor ts)
        ⟨issueNumber, actor, ts, now⟩) (pendingKey actor ts)).find?
          (fun e => decide (e.2.actor = actor)) = none :=
      List.find?_eq_none.mpr (fun e he hek => hmem e he (by simpa using hek))
    have hclean : cleanupPendingWorkflow
        (addPendingWorkflow st actor ts issueNumber now).1 (pendingKey actor ts) =
        { st with pendingWorkflows :=
            omitKey (recordSet st.pendingWorkflows (pendingKey actor ts)
              ⟨issueNumber, actor, ts, now⟩) (pendingKey actor ts) } := by
      unfold cleanupPendingWorkflow
      rw [if_pos]
      · rfl
      · show (recordGet (recordSet st.pendingWorkflows (pendingKey actor ts)
            ⟨issueNumber, actor, ts, now⟩) (pendingKey actor ts)).isSome = true
        rw [recordGet_recordSet_self]
        rfl
    rw [hclean]
    simp [consumePendingWorkflow, hfind]

/-- Witness for C4: register an entry for alice in an empty tracker, let the
cleanup fire, and observe consumption finds nothing; plus the cleanup
no-op on a missing key. -/
theorem addPendingWorkflow_cleanup_spec_witness :
    (addPendingWorkflow ⟨0, []⟩ "alice" "t1" 42 100).2 =
      [⟨PENDING_WORKFLOW_CLEANUP_SECONDS, pendingKey "alice" "t1"⟩] ∧
    recordGet (cleanupPendingWorkflow
        (addPendingWorkflow ⟨0, []⟩ "alice" "t1" 42 100).1
        (pendingKey "alice" "t1")).pendingWorkflows (pendingKey "alice" "t1") = none ∧
    cleanupPendingWorkflow (⟨0, []⟩ : RepoAgentState) "alice:t1" = ⟨0, []⟩ ∧
    (consumePendingWorkflow
        (cleanupPendingWorkflow (addPendingWorkflow ⟨0, []⟩ "alice" "t1" 42 100).1
          (pendingKey "alice" "t1")) "alice").1 = none :=
  ⟨(addPendingWorkflow_cleanup_spec ⟨0, []⟩ "alice" "t1" 42 100).1,
   (addPendingWorkflow_cleanup_spec ⟨0, []⟩ "alice" "t1" 42 100).2.2.2.1
     (addPendingWorkflow ⟨0, []⟩ "alice" "t1" 42 100).1 (pendingKey "alice" "t1")
     (by decide),
   (addPendingWorkflow_cleanup_spec ⟨0, []⟩ "alice" "t1" 42 100).2.2.2.2.1
     ⟨0, []⟩ "alice:t1" rfl,
   (addPendingWorkflow_cleanup_spec ⟨0, []⟩ "alice" "t1" 42 100).2.2.2.2.2
     (by decide)⟩

/-- C9: re-registering the same `actor:timestamp` key schedules an
additional cleanup trigger (each registration unconditionally emits
one, and no operation cancels a trigger), the overwrite wins in the
map, and — because the cleanup tests only key presence — a cleanup
fired for that key removes the overwriting entry, so the earlier
trigger of the first registration already evicts it 600 seconds after the first
registration. -/
theorem addPendingWorkflow_overwrite_cleanup (st : RepoAgentState) (actor ts : String)
    (i1 t1 i2 t2 : Nat) :
    (addPendingWorkflow st actor ts i1 t1).2 =
      [⟨PENDING_WORKFLOW_CLEANUP_SECONDS, pendingKey actor ts⟩] ∧
    (addPendingWorkflow (addPendingWorkflow st actor ts i1 t1).1 actor ts i2 t2).2 =
      [⟨PENDING_WORKFLOW_CLEANUP_SECONDS, pendingKey actor ts⟩] ∧
    recordGet (addPendingWorkflow (addPendingWorkflow st actor ts i1 t1).1
        actor ts i2 t2).1.pendingWorkflows (pendingKey actor ts) =
      some ⟨i2, actor, ts, t2⟩ ∧
    recordGet (cleanupPendingWorkflow
        (addPendingWorkflow (addPendingWorkflow st actor ts i1 t1).1 actor ts i2 t2).1
        (pendingKey actor ts)).pendingWorkflows (pendingKey actor ts) = none := by
  refine ⟨rfl, rfl, recordGet_recordSet_self _ _ _, ?_⟩
  unfold cleanupPendingWorkflow
  rw [if_pos]
  · exact recordGet_omitKey_self _ _
  · show (recordGet (recordSet (addPendingWorkflow st actor ts i1 t1).1.pendingWorkflows
        (pendingKey actor ts) ⟨i2, actor, ts, t2⟩) (pendingKey actor ts)).isSome = true
    rw [recordGet_recordSet_self]
    rfl

/-- C10: each state-mutating tracker operation preserves the fields it
does not target: `setInstallationId` keeps the pending map;
`addPendingWorkflow`, `consumePendingWorkflow` and
`cleanupPendingWorkflow` keep the installation id and touch at most the
single entry named by their key or actor, leaving every other pending
entry in place. -/
theorem repoAgent_frame (st : RepoAgentState) (id : Nat) (actor ts : String)
    (issueNumber now : Nat) (key : String) :
    (setInstallationId st id).pendingWorkflows = st.pendingWorkflows ∧
    (addPendingWorkflow st actor ts issueNumber now).1.installationId =
      st.installationId ∧
    (∀ e ∈ st.pendingWorkflows, e.1 ≠ pendingKey actor ts →
      e ∈ (addPendingWorkflow st actor ts issueNumber now).1.pendingWorkflows) ∧
    (∀ e ∈ (addPendingWorkflow st actor ts issueNumber now).1.pendingWorkflows,
      e ∈ st.pendingWorkflows ∨ e.1 = pendingKey actor ts) ∧
    (consumePendingWorkflow st actor).2.installationId = st.installationId ∧
    ((consumePendingWorkflow st actor).2.pendingWorkflows = st.pendingWorkflows ∨
      ∃ k, (consumePendingWorkflow st actor).2.pendingWorkflows =
        omitKey st.pendingWorkflows k) ∧
    (cleanupPendingWorkflow st key).installationId = st.installationId ∧
    ((cleanupPendingWorkflow st key).pendingWorkflows = st.pendingWorkflows ∨
      (cleanupPendingWorkflow st key).pendingWorkflows =
        omitKey st.pendingWorkflows key) ∧
    (∀ e ∈ st.pendingWorkflows, e.1 ≠ key →
      e ∈ (cleanupPendingWorkflow st key).pendingWorkflows) := by
  refine ⟨rfl, rfl, ?_, ?_, ?_, ?_, ?_, ?_, ?_⟩
  · intro e he hne
    exact mem_recordSet_of_mem _ _ _ _ he hne
  · intro e he
    exact mem_recordSet _ _ _ _ he
  · unfold consumePendingWorkflow
    cases hf : st.pendingWorkflows.find? (fun e => decide (e.2.actor = actor)) with
    | none => rfl
    | some e => rfl
  · unfold consumePendingWorkflow
    cases hf : st.pendingWorkflows.find? (fun e => decide (e.2.actor = actor)) with
    | none => exact Or.inl rfl
    | some e => exact Or.inr ⟨e.1, rfl⟩
  · unfold cleanupPendingWorkflow
    split
    · rfl
    · rfl
  · unfold cleanupPendingWorkflow
    split
    · exact Or.inr rfl
    · exact Or.inl rfl
  · intro e he hne
    unfold cleanupPendingWorkflow
    split
    · exact mem_omitKey_of_mem _ _ _ he hne
    · exact he

/-- Witness for C10: a tracker holding an entry for alice; registering for
bob keeps it, and a cleanup for an unrelated key keeps it. -/
theorem repoAgent_frame_witness :
    (setInstallationId ⟨5, [("a:t1", ⟨1, "a", "t1", 0⟩)]⟩ 9).pendingWorkflows =
      [("a:t1", ⟨1, "a", "t1", 0⟩)] ∧
    ("a:t1", (⟨1, "a", "t1", 0⟩ : PendingWorkflow)) ∈
      (addPendingWorkflow ⟨5, [("a:t1", ⟨1, "a", "t1", 0⟩)]⟩ "b" "t2" 7 3).1.pendingWorkflows ∧
    ("a:t1", (⟨1, "a", "t1", 0⟩ : PendingWorkflow)) ∈
      (cleanupPendingWorkflow ⟨5, [("a:t1", ⟨1, "a", "t1", 0⟩)]⟩ "zzz").pendingWorkflows :=
  ⟨(repoAgent_frame ⟨5, [("a:t1", ⟨1, "a", "t1", 0⟩)]⟩ 9 "b" "t2" 7 3 "zzz").1,
   (repoAgent_frame ⟨5, [("a:t1", ⟨1, "a", "t1", 0⟩)]⟩ 9 "b" "t2" 7 3 "zzz").2.2.1
     ("a:t1", ⟨1, "a", "t1", 0⟩) (by decide) (by decide),
   (repoAgent_frame ⟨5, [("a:t1", ⟨1, "a", "t1", 0⟩)]⟩ 9 "b" "t2" 7 3 "zzz").2.2.2.2.2.2.2.2
     ("a:t1", ⟨1, "a", "t1", 0⟩) (by decide) (by decide)⟩

/-- C1: a poll that fires with elapsed time (now minus the createdAt
carried in the payload) over the 30-minute ceiling posts exactly one timeout
notification and schedules nothing further; a poll before the ceiling
whose status query succeeds with a non-completed status posts nothing
and reschedules exactly one poll after the 30-second interval with the
payload (hence createdAt) unchanged, so the timeout is wall-clock from
creation. -/
theorem checkWorkflowStatus_timeout_and_reschedule
    (payload : CheckStatusPayload) (env : PollEnv) :
    ((env.now : Int) - payload.createdAt > MAX_TRACKING_TIME_MS →
      checkWorkflowStatus payload env =
        { notifications := [failureCommentBody payload.runUrl (some "timeout")]
          scheduled := [] }) ∧
    (∀ status, (env.now : Int) - payload.createdAt ≤ MAX_TRACKING_TIME_MS →
      env.octokitOk = true → env.statusResult = some status →
      status.status ≠ "completed" →
      checkWorkflowStatus payload env =
        { notifications := [], scheduled := [(POLL_INTERVAL_SECONDS, payload)] }) := by
  constructor
  · intro h
    simp [checkWorkflowStatus, h]
  · intro status hle hok hst hnc
    have hlt : ¬ ((env.now : Int) - (payload.createdAt : Int) > (MAX_TRACKING_TIME_MS : Int)) := by
      omega
    simp [checkWorkflowStatus, hlt, hok, hst, hnc]

/-- Witness for C1: a concrete run created at time 0, polled once at
1800001 ms (past the ceiling) and once at 1000 ms while in progress. -/
theorem checkWorkflowStatus_timeout_and_reschedule_witness :
    checkWorkflowStatus ⟨7, "https://x", 3, 0⟩ ⟨1800001, true, none⟩ =
      { notifications := [failureCommentBody "https://x" (some "timeout")]
        scheduled := [] } ∧
    checkWorkflowStatus ⟨7, "https://x", 3, 0⟩
        ⟨1000, true, some ⟨"in_progress", none⟩⟩ =
      { notifications := []
        scheduled := [(POLL_INTERVAL_SECONDS, ⟨7, "https://x", 3, 0⟩)] } :=
  ⟨(checkWorkflowStatus_timeout_and_reschedule ⟨7, "https://x", 3, 0⟩
      ⟨1800001, true, none⟩).1 (by decide),
   (checkWorkflowStatus_timeout_and_reschedule ⟨7, "https://x", 3, 0⟩
      ⟨1000, true, some ⟨"in_progress", none⟩⟩).2 ⟨"in_progress", none⟩
      (by decide) rfl rfl (by decide)⟩

/-- C2: a poll whose status query returns `completed` stops polling in
every case; with conclusion `success` it posts nothing, with any other
conclusion it posts exactly one notification whose body is selected by
the conclusion — the failed wording for `failure`, the cancelled
wording for `cancelled`, the timed-out wording for `timeout`, and the
generic `finished with status` wording (with `unknown` for null)
otherwise. -/
theorem checkWorkflowStatus_completed
    (payload : CheckStatusPayload) (env : PollEnv) (status : WorkflowRunStatus)
    (hle : (env.now : Int) - payload.createdAt ≤ MAX_TRACKING_TIME_MS)
    (hok : env.octokitOk = true) (hst : env.statusResult = some status)
    (hc : status.status = "completed") :
    ((status.conclusion = some "success" →
       checkWorkflowStatus payload env = { notifications := [], scheduled := [] }) ∧
     (status.conclusion ≠ some "success" →
       checkWorkflowStatus payload env =
         { notifications := [failureCommentBody payload.runUrl status.conclusion]
           scheduled := [] })) ∧
    failureStatusMessage (some "failure") =
      "Bonk workflow failed. Check the logs for details." ∧
    failureStatusMessage (some "cancelled") = "Bonk workflow was cancelled." ∧
    failureStatusMessage (some "timeout") = "Bonk workflow timed out." ∧
    failureStatusMessage none = "Bonk workflow finished with status: unknown" ∧
    (∀ c, c ≠ "timeout" → c ≠ "failure" → c ≠ "cancelled" →
      failureStatusMessage (some c) = "Bonk workflow finished with status: " ++ c) := by
  have hlt : ¬ ((env.now : Int) - (payload.createdAt : Int) > (MAX_TRACKING_TIME_MS : Int)) := by
    omega
  refine ⟨⟨?_, ?_⟩, by decide, by decide, by decide, by decide, ?_⟩
  · intro hs
    simp [checkWorkflowStatus, hlt, hok, hst, hc, hs]
  · intro hs
    simp [checkWorkflowStatus, hlt, hok, hst, hc, hs]
  · intro c h1 h2 h3
    simp [failureStatusMessage, h1, h2, h3]

/-- Witness for C2: a run polled at 1000 ms that has completed with
conclusion `failure`. -/
theorem checkWorkflowStatus_completed_witness :
    checkWorkflowStatus ⟨7, "https://x", 3, 0⟩
        ⟨1000, true, some ⟨"completed", some "failure"⟩⟩ =
      { notifications := [failureCommentBody "https://x" (some "failure")]
        scheduled := [] } ∧
    failureStatusMessage (some "other") = "Bonk workflow finished with status: other" :=
  ⟨((checkWorkflowStatus_completed ⟨7, "https://x", 3, 0⟩
      ⟨1000, true, some ⟨"completed", some "failure"⟩⟩ ⟨"completed", some "failure"⟩
      (by decide) rfl rfl rfl).1).2 (by decide),
   (checkWorkflowStatus_completed ⟨7, "https://x", 3, 0⟩
      ⟨1000, true, some ⟨"completed", some "failure"⟩⟩ ⟨"completed", some "failure"⟩
      (by decide) rfl rfl rfl).2.2.2.2.2 "other" (by decide) (by decide) (by decide)⟩

/-- C5: a poll before the ceiling in which client creation fails or the
status query throws posts no notification and reschedules exactly one
poll after the same interval with the payload unchanged; the handler is
total, so no exception propagates. -/
theorem checkWorkflowStatus_transient_fault
    (payload : CheckStatusPayload) (env : PollEnv)
    (hle : (env.now : Int) - payload.createdAt ≤ MAX_TRACKING_TIME_MS)
    (hfail : env.octokitOk = false ∨ env.statusResult = none) :
    checkWorkflowStatus payload env =
      { notifications := [], scheduled := [(POLL_INTERVAL_SECONDS, payload)] } := by
  have hlt : ¬ ((env.now : Int) - (payload.createdAt : Int) > (MAX_TRACKING_TIME_MS : Int)) := by
    omega
  rcases hfail with h | h
  · simp [checkWorkflowStatus, hlt, h]
  · cases hok : env.octokitOk with
    | false => simp [checkWorkflowStatus, hlt, hok]
    | true => simp [checkWorkflowStatus, hlt, hok, h]

/-- Witness for C5: client creation fails at 1000 ms; the query throws
at 2000 ms. -/
theorem checkWorkflowStatus_transient_fault_witness :
    checkWorkflowStatus ⟨7, "https://x", 3, 0⟩ ⟨1000, false, some ⟨"queued", none⟩⟩ =
      { notifications := []
        scheduled := [(POLL_INTERVAL_SECONDS, ⟨7, "https://x", 3, 0⟩)] } ∧
    checkWorkflowStatus ⟨7, "https://x", 3, 0⟩ ⟨2000, true, none⟩ =
      { notifications := []
        scheduled := [(POLL_INTERVAL_SECONDS, ⟨7, "https://x", 3, 0⟩)] } :=
  ⟨checkWorkflowStatus_transient_fault ⟨7, "https://x", 3, 0⟩
      ⟨1000, false, some ⟨"queued", none⟩⟩ (by decide) (Or.inl rfl),
   checkWorkflowStatus_transient_fault ⟨7, "https://x", 3, 0⟩
      ⟨2000, true, none⟩ (by decide) (Or.inr rfl)⟩

/-- C8: when elapsed time is past the ceiling the handler posts the
timeout comment and stops without consulting the status query result:
even in an environment whose query would report the run completed with
conclusion `success`, and whatever the client-creation outcome, the
timeout notification is posted. -/
theorem checkWorkflowStatus_timeout_before_query
    (payload : CheckStatusPayload) (now : Nat) (ok : Bool)
    (h : (now : Int) - payload.createdAt > MAX_TRACKING_TIME_MS) :
    checkWorkflowStatus payload ⟨now, ok, some ⟨"completed", some "success"⟩⟩ =
      { notifications := [failureCommentBody payload.runUrl (some "timeout")]
        scheduled := [] } := by
  simp [checkWorkflowStatus, h]

/-- Witness for C8: a run created at 0 polled at 1800001 ms while the
remote run has already succeeded. -/
theorem checkWorkflowStatus_timeout_before_query_witness :
    checkWorkflowStatus ⟨7, "https://x", 3, 0⟩
        ⟨1800001, false, some ⟨"completed", some "success"⟩⟩ =
      { notifications := [failureCommentBody "https://x" (some "timeout")]
        scheduled := [] } :=
  checkWorkflowStatus_timeout_before_query ⟨7, "https://x", 3, 0⟩ 1800001 false (by decide)

/-- A successful invocation stops the retry loop at once. -/
lemma sandboxRetryLoop_ok (sandbox : Nat → Except String SandboxResult) (attempt : Nat)
    (r : SandboxResult) (h : sandbox attempt = .ok r) :
    sandboxRetryLoop sandbox attempt = ([OrchEffect.sandboxInvocation attempt], .ok r) := by
  unfold sandboxRetryLoop
  rw [h]

/-- Three straight failures walk all three attempts with a 15-second
pause after each of the first two and surface the last error. -/
lemma sandboxRetryLoop_all_fail (sandbox : Nat → Except String SandboxResult)
    (e1 e2 e3 : String) (h1 : sandbox 1 = .error e1) (h2 : sandbox 2 = .error e2)
    (h3 : sandbox 3 = .error e3) :
    sandboxRetryLoop sandbox 1 =
      ([OrchEffect.sandboxInvocation 1, OrchEffect.sleepMs 15000,
        OrchEffect.sandboxInvocation 2, OrchEffect.sleepMs 15000,
        OrchEffect.sandboxInvocation 3], .error e3) := by
  have u3 : sandboxRetryLoop sandbox 3 = ([OrchEffect.sandboxInvocation 3], .error e3) := by
    unfold sandboxRetryLoop
    rw [h3]
    simp [maxRetries]
  have u2 : sandboxRetryLoop sandbox 2 =
      ([OrchEffect.sandboxInvocation 2, OrchEffect.sleepMs 15000,
        OrchEffect.sandboxInvocation 3], .error e3) := by
    unfold sandboxRetryLoop
    rw [h2]
    simp [maxRetries, u3]
  unfold sandboxRetryLoop
  rw [h1]
  simp [maxRetries, u2]

/-- A failure on the first attempt followed by a success on the second
pauses 15 seconds once and surfaces the second attempt as the result:
the retry loop succeeds on later attempts too. -/
lemma sandboxRetryLoop_retry_ok (sandbox : Nat → Except String SandboxResult)
    (e1 : String) (r : SandboxResult)
    (h1 : sandbox 1 = .error e1) (h2 : sandbox 2 = .ok r) :
    sandboxRetryLoop sandbox 1 =
      ([OrchEffect.sandboxInvocation 1, OrchEffect.sleepMs 15000,
        OrchEffect.sandboxInvocation 2], .ok r) := by
  have u2 : sandboxRetryLoop sandbox 2 = ([OrchEffect.sandboxInvocation 2], .ok r) :=
    sandboxRetryLoop_ok sandbox 2 r h2
  unfold sandboxRetryLoop
  rw [h1]
  simp [maxRetries, u2]

/-- The retry loop never creates a comment. -/
lemma sandboxRetryLoop_countP_create (sandbox : Nat → Except String SandboxResult)
    (attempt : Nat) :
    (sandboxRetryLoop sandbox attempt).1.countP isCreateComment = 0 := by
  unfold sandboxRetryLoop
  cases h : sandbox attempt with
  | ok r => simp [List.countP_cons, isCreateComment]
  | error e =>
      simp only []
      split
      · next hlt =>
          have ih := sandboxRetryLoop_countP_create sandbox (attempt + 1)
          simp [List.countP_cons, isCreateComment, ih]
      · simp [List.countP_cons, isCreateComment]
  termination_by maxRetries - attempt

/-- The retry loop never updates a comment either. -/
lemma sandboxRetryLoop_countP_update (sandbox : Nat → Except String SandboxResult)
    (attempt : Nat) :
    (sandboxRetryLoop sandbox attempt).1.countP isUpdateComment = 0 := by
  unfold sandboxRetryLoop
  cases h : sandbox attempt with
  | ok r => simp [List.countP_cons, isUpdateComment]
  | error e =>
      simp only []
      split
      · next hlt =>
          have ih := sandboxRetryLoop_countP_update sandbox (attempt + 1)
          simp [List.countP_cons, isUpdateComment, ih]
      · simp [List.countP_cons, isUpdateComment]
  termination_by maxRetries - attempt

/-- The retry loop started at `attempt` performs at most
`maxRetries - attempt + 1` sandbox invocations. -/
lemma sandboxRetryLoop_countP_sandbox (sandbox : Nat → Except String SandboxResult)
    (attempt : Nat) :
    (sandboxRetryLoop sandbox attempt).1.countP isSandboxInvocation ≤
      maxRetries - attempt + 1 := by
  have einv : ∀ n, isSandboxInvocation (OrchEffect.sandboxInvocation n) = true :=
    fun n => rfl
  have eslp : isSandboxInvocation (OrchEffect.sleepMs 15000) = false := rfl
  unfold sandboxRetryLoop
  cases h : sandbox attempt with
  | ok r =>
      simp only []
      simp [List.countP_cons, einv]
  | error e =>
      simp only []
      split
      · next hlt =>
          have ih := sandboxRetryLoop_countP_sandbox sandbox (attempt + 1)
          simp only [List.countP_cons, einv, eslp]
          simp only [if_true]
          norm_num
          omega
      · simp [List.countP_cons, einv]
  termination_by maxRetries - attempt

/-- Every branch of the post-context step finalizes the placeholder at
least once. -/
lemma afterContextStep_has_update (p : OrchParams) (env : OrchEnv) (cid : Nat)
    (m : String) :
    ∃ b, OrchEffect.updateComment cid b ∈ (afterContextStep p env cid m).1 := by
  unfold afterContextStep
  simp only []
  cases hres : (sandboxRetryLoop env.sandbox 1).2 with
  | error e =>
      exact ⟨"Bonk failed\n\n```\n" ++ e ++ "\n```",
        List.mem_append_right _ (List.mem_singleton.mpr rfl)⟩
  | ok r =>
      simp only []
      split
      · cases hpr : env.createPRNumber with
        | error e =>
            exact ⟨formatResponse r.response r.changedFiles r.sessionLink m,
              List.mem_append_right _ (List.mem_singleton.mpr rfl)⟩
        | ok n =>
            exact ⟨formatResponse r.response r.changedFiles r.sessionLink m,
              List.mem_append_left _
                (List.mem_append_right _ (List.mem_singleton.mpr rfl))⟩
      · exact ⟨formatResponse r.response r.changedFiles r.sessionLink m,
          List.mem_append_right _ (List.mem_singleton.mpr rfl)⟩

/-- Whenever the retry loop returns a result — a success on any of the
three attempts — the post-context step finalizes the placeholder with
the formatted result. -/
lemma afterContextStep_ok_update (p : OrchParams) (env : OrchEnv) (cid : Nat)
    (m : String) (r : SandboxResult)
    (hok : (sandboxRetryLoop env.sandbox 1).2 = .ok r) :
    OrchEffect.updateComment cid
        (formatResponse r.response r.changedFiles r.sessionLink m) ∈
      (afterContextStep p env cid m).1 := by
  unfold afterContextStep
  simp only []
  rw [hok]
  simp only []
  split
  · cases hcp : env.createPRNumber with
    | error e =>
        exact List.mem_append_right _ (List.mem_singleton.mpr rfl)
    | ok n =>
        exact List.mem_append_left _
          (List.mem_append_right _ (List.mem_singleton.mpr rfl))
  · exact List.mem_append_right _ (List.mem_singleton.mpr rfl)

/-- The post-context step creates no placeholder comment and performs
at most three sandbox invocations. -/
lemma afterContextStep_counts (p : OrchParams) (env : OrchEnv) (cid : Nat)
    (m : String) :
    (afterContextStep p env cid m).1.countP isCreateComment = 0 ∧
    (afterContextStep p env cid m).1.countP isSandboxInvocation ≤ 3 := by
  have hc := sandboxRetryLoop_countP_create env.sandbox 1
  have hs := sandboxRetryLoop_countP_sandbox env.sandbox 1
  have hs3 : (sandboxRetryLoop env.sandbox 1).1.countP isSandboxInvocation ≤ 3 := by
    simpa [maxRetries] using hs
  have eupd : ∀ c b, isSandboxInvocation (OrchEffect.updateComment c b) = false :=
    fun c b => rfl
  have eprc : ∀ a b c d, isSandboxInvocation (OrchEffect.createPullRequest a b c d) = false :=
    fun a b c d => rfl
  unfold afterContextStep
  simp only []
  cases hres : (sandboxRetryLoop env.sandbox 1).2 with
  | error e =>
      constructor
      · simp [List.countP_append, List.countP_cons, isCreateComment, hc]
      · simp only [List.countP_append, List.countP_cons, List.countP_nil, eupd]
        norm_num
        omega
  | ok r =>
      simp only []
      split
      · cases hpr : env.createPRNumber with
        | error e =>
            constructor
            · simp [List.countP_append, List.countP_cons, isCreateComment, hc]
            · simp only [List.countP_append, List.countP_cons, List.countP_nil, eupd]
              norm_num
              omega
        | ok n =>
            constructor
            · simp [List.countP_append, List.countP_cons, isCreateComment, hc]
            · simp only [List.countP_append, List.countP_cons, List.countP_nil,
                eupd, eprc]
              norm_num
              omega
      · constructor
        · simp [List.countP_append, List.countP_cons, isCreateComment, hc]
        · simp only [List.countP_append, List.countP_cons, List.countP_nil, eupd]
          norm_num
          omega

/-- The try-block body creates no placeholder comment and performs at
most three sandbox invocations. -/
lemma processRequestBody_counts (p : OrchParams) (env : OrchEnv) (cid : Nat) :
    (processRequestBody p env cid).1.countP isCreateComment = 0 ∧
    (processRequestBody p env cid).1.countP isSandboxInvocation ≤ 3 := by
  unfold processRequestBody
  split
  · simp
  · split
    · simp
    · split
      · simp
      · split
        · simp
        · split
          · split
            · simp
            · split
              · refine ⟨by simp [List.countP_cons, isCreateComment], ?_⟩
                simp [List.countP_cons, isSandboxInvocation]
              · exact afterContextStep_counts p env cid _
          · split
            · simp
            · exact afterContextStep_counts p env cid _

/-- Every run of the try-block body either finalizes the placeholder
itself or throws to the outer catch (which then finalizes it). -/
lemma processRequestBody_update_or_throw (p : OrchParams) (env : OrchEnv) (cid : Nat) :
    (∃ b, OrchEffect.updateComment cid b ∈ (processRequestBody p env cid).1) ∨
    (∃ e, (processRequestBody p env cid).2 = some e) := by
  unfold processRequestBody
  split
  · exact Or.inr ⟨_, rfl⟩
  · split
    · exact Or.inr ⟨_, rfl⟩
    · split
      · exact Or.inr ⟨_, rfl⟩
      · split
        · exact Or.inr ⟨_, rfl⟩
        · split
          · split
            · exact Or.inr ⟨_, rfl⟩
            · split
              · exact Or.inl ⟨"Fork PRs are not supported.",
                  List.mem_singleton.mpr rfl⟩
              · exact Or.inl (afterContextStep_has_update p env cid _)
          · split
            · exact Or.inr ⟨_, rfl⟩
            · exact Or.inl (afterContextStep_has_update p env cid _)

/-- C6: for every request that passes the permission check the
orchestrator creates exactly one placeholder comment (first effect),
invokes the external agent at most 3 times, and finalizes the
placeholder at least once in every terminal outcome; when all three
attempts throw it performs exactly the trace create, attempt, 15-second
pause, attempt, pause, attempt, finalize-with-last-error; when any attempt succeeds
(the retry loop returns a result) the placeholder is finalized with
the formatted result. -/
theorem processRequest_orchestration (p : OrchParams) (env : OrchEnv)
    (hw : env.canWrite = true) :
    (processRequest p env).countP isCreateComment = 1 ∧
    (processRequest p env).head? =
      some (OrchEffect.createComment p.issueNumber "Bonk is working on it...") ∧
    (processRequest p env).countP isSandboxInvocation ≤ 3 ∧
    (∃ b, OrchEffect.updateComment env.responseCommentId b ∈ processRequest p env) ∧
    (∀ e1 e2 e3, preludeOk p env →
      env.sandbox 1 = .error e1 → env.sandbox 2 = .error e2 →
      env.sandbox 3 = .error e3 →
      processRequest p env =
        [OrchEffect.createComment p.issueNumber "Bonk is working on it...",
         OrchEffect.sandboxInvocation 1, OrchEffect.sleepMs 15000,
         OrchEffect.sandboxInvocation 2, OrchEffect.sleepMs 15000,
         OrchEffect.sandboxInvocation 3,
         OrchEffect.updateComment env.responseCommentId
           ("Bonk failed\n\n```\n" ++ e3 ++ "\n```")]) ∧
    (∀ r m, preludeOk p env → env.modelString = .ok m →
      (sandboxRetryLoop env.sandbox 1).2 = .ok r →
      OrchEffect.updateComment env.responseCommentId
          (formatResponse r.response r.changedFiles r.sessionLink m) ∈
        processRequest p env) := by
  have hbody := processRequestBody_counts p env env.responseCommentId
  have hpr : processRequest p env =
      OrchEffect.createComment p.issueNumber "Bonk is working on it..." ::
        (match (processRequestBody p env env.responseCommentId).2 with
         | none => (processRequestBody p env env.responseCommentId).1
         | some err =>
             (processRequestBody p env env.responseCommentId).1 ++
               [OrchEffect.updateComment env.responseCommentId
                 ("Bonk failed\n\n```\n" ++ err ++ "\n```")]) := by
    simp [processRequest, hw]
  refine ⟨?_, ?_, ?_, ?_, ?_, ?_⟩
  · rw [hpr]
    cases hb : (processRequestBody p env env.responseCommentId).2 with
    | none => simp [List.countP_cons, isCreateComment, hbody.1]
    | some err =>
        simp [List.countP_cons, List.countP_append, isCreateComment, hbody.1]
  · rw [hpr]
    rfl
  · have e1 : isSandboxInvocation
        (OrchEffect.createComment p.issueNumber "Bonk is working on it...") = false := rfl
    rw [hpr]
    cases hb : (processRequestBody p env env.responseCommentId).2 with
    | none =>
        simp only [List.countP_cons, e1, Bool.false_eq_true, if_false]
        have := hbody.2
        omega
    | some err =>
        have e2 : isSandboxInvocation
            (OrchEffect.updateComment env.responseCommentId
              ("Bonk failed\n\n```\n" ++ err ++ "\n```")) = false := rfl
        simp only [List.countP_cons, List.countP_append, List.countP_nil, e1, e2,
          Bool.false_eq_true, if_false]
        have := hbody.2
        omega
  · rcases processRequestBody_update_or_throw p env env.responseCommentId with
      ⟨b, hbmem⟩ | ⟨e, he⟩
    · refine ⟨b, ?_⟩
      rw [hpr]
      cases hb : (processRequestBody p env env.responseCommentId).2 with
      | none => exact List.mem_cons_of_mem _ hbmem
      | some err => exact List.mem_cons_of_mem _ (List.mem_append_left _ hbmem)
    · refine ⟨"Bonk failed\n\n```\n" ++ e ++ "\n```", ?_⟩
      rw [hpr, he]
      exact List.mem_cons_of_mem _
        (List.mem_append_right _ (List.mem_singleton.mpr rfl))
  · intro e1 e2 e3 hpre h1 h2 h3
    obtain ⟨⟨b, hrpv⟩, ⟨m, hms⟩, ⟨t, htk⟩, ⟨s, hpp⟩, hrest⟩ := hpre
    have hloop := sandboxRetryLoop_all_fail env.sandbox e1 e2 e3 h1 h2 h3
    cases hpr2 : p.isPullRequest with
    | true =>
        rw [hpr2] at hrest
        simp only [if_true] at hrest
        obtain ⟨d, hpd, hsame⟩ := hrest
        simp [processRequest, processRequestBody, afterContextStep, hw, hrpv, hms,
          htk, hpp, hpr2, hpd, hsame, hloop]
    | false =>
        rw [hpr2] at hrest
        simp only [Bool.false_eq_true, if_false] at hrest
        obtain ⟨u, hif⟩ := hrest
        simp [processRequest, processRequestBody, afterContextStep, hw, hrpv, hms,
          htk, hpp, hpr2, hif, hloop]
  · intro r m hpre hms2 hok
    obtain ⟨⟨b, hrpv⟩, ⟨m', hms⟩, ⟨t, htk⟩, ⟨s, hpp⟩, hrest⟩ := hpre
    have hupd := afterContextStep_ok_update p env env.responseCommentId m r hok
    have hbody : processRequestBody p env env.responseCommentId =
        afterContextStep p env env.responseCommentId m := by
      cases hpr2 : p.isPullRequest with
      | true =>
          rw [hpr2] at hrest
          simp only [if_true] at hrest
          obtain ⟨d, hpd, hsame⟩ := hrest
          simp [processRequestBody, hrpv, hms2, htk, hpp, hpr2, hpd, hsame]
      | false =>
          rw [hpr2] at hrest
          simp only [Bool.false_eq_true, if_false] at hrest
          obtain ⟨u, hif⟩ := hrest
          simp [processRequestBody, hrpv, hms2, htk, hpp, hpr2, hif]
    have hfin : OrchEffect.updateComment env.responseCommentId
        (formatResponse r.response r.changedFiles r.sessionLink m) ∈
          (processRequestBody p env env.responseCommentId).1 := by
      rw [hbody]
      exact hupd
    rw [hpr]
    cases hb : (processRequestBody p env env.responseCommentId).2 with
    | none => exact List.mem_cons_of_mem _ hfin
    | some err => exact List.mem_cons_of_mem _ (List.mem_append_left _ hfin)

/-- Witness for C6: an issue-mode request against an environment whose
sandbox always throws runs the full retry trace; against one whose
first attempt throws and whose second succeeds, the formatted result
still finalizes the comment. -/
theorem processRequest_orchestration_witness :
    processRequest ⟨"o", "r", 3, "alice", false, "main", none⟩
        ⟨true, 10, .ok false, .ok "anthropic/claude", .ok "tok", .ok "prompt",
          .error "unused", .ok (), fun _ => .error "boom", .error "unused"⟩ =
      [OrchEffect.createComment 3 "Bonk is working on it...",
       OrchEffect.sandboxInvocation 1, OrchEffect.sleepMs 15000,
       OrchEffect.sandboxInvocation 2, OrchEffect.sleepMs 15000,
       OrchEffect.sandboxInvocation 3,
       OrchEffect.updateComment 10 ("Bonk failed\n\n```\n" ++ "boom" ++ "\n```")] ∧
    OrchEffect.updateComment 10
        (formatResponse "resp" none "link" "anthropic/claude") ∈
      processRequest ⟨"o", "r", 3, "alice", false, "main", none⟩
        ⟨true, 10, .ok false, .ok "anthropic/claude", .ok "tok", .ok "prompt",
          .error "unused", .ok (),
          fun n => if n = 1 then .error "flaky" else .ok ⟨"resp", none, "link", none, ""⟩,
          .error "unused"⟩ :=
  ⟨(processRequest_orchestration ⟨"o", "r", 3, "alice", false, "main", none⟩
      ⟨true, 10, .ok false, .ok "anthropic/claude", .ok "tok", .ok "prompt",
        .error "unused", .ok (), fun _ => .error "boom", .error "unused"⟩
      rfl).2.2.2.2.1 "boom" "boom" "boom"
      ⟨⟨false, rfl⟩, ⟨"anthropic/claude", rfl⟩, ⟨"tok", rfl⟩, ⟨"prompt", rfl⟩,
        by simp⟩ rfl rfl rfl,
   (processRequest_orchestration ⟨"o", "r", 3, "alice", false, "main", none⟩
      ⟨true, 10, .ok false, .ok "anthropic/claude", .ok "tok", .ok "prompt",
        .error "unused", .ok (),
        fun n => if n = 1 then .error "flaky" else .ok ⟨"resp", none, "link", none, ""⟩,
        .error "unused"⟩
      rfl).2.2.2.2.2 ⟨"resp", none, "link", none, ""⟩ "anthropic/claude"
      ⟨⟨false, rfl⟩, ⟨"anthropic/claude", rfl⟩, ⟨"tok", rfl⟩, ⟨"prompt", rfl⟩,
        by simp⟩ rfl
      (by rw [sandboxRetryLoop_retry_ok _ "flaky" ⟨"resp", none, "link", none, ""⟩
        rfl rfl])⟩

/-- C7: a pull-request-mode request whose fetched PR has a head
repository different from its base repository is refused: the
placeholder is finalized with the fork message and the trace contains
no sandbox invocation and no pull-request creation. -/
theorem processRequest_fork_refused (p : OrchParams) (env : OrchEnv) (prData : PRData)
    (hw : env.canWrite = true) (hpr : p.isPullRequest = true)
    (hrp : ∃ b, env.repoPrivate = .ok b) (hms : ∃ m, env.modelString = .ok m)
    (htk : ∃ t, env.token = .ok t) (hpp : ∃ s, env.processedPrompt = .ok s)
    (hprd : env.prData = .ok prData)
    (hfork : prData.headRepositoryNameWithOwner ≠ prData.baseRepositoryNameWithOwner) :
    processRequest p env =
      [OrchEffect.createComment p.issueNumber "Bonk is working on it...",
       OrchEffect.updateComment env.responseCommentId "Fork PRs are not supported."] ∧
    (processRequest p env).countP isSandboxInvocation = 0 ∧
    (processRequest p env).countP isCreatePR = 0 := by
  obtain ⟨b, hrpv⟩ := hrp
  obtain ⟨m, hmsv⟩ := hms
  obtain ⟨t, htkv⟩ := htk
  obtain ⟨s, hppv⟩ := hpp
  have heq : processRequest p env =
      [OrchEffect.createComment p.issueNumber "Bonk is working on it...",
       OrchEffect.updateComment env.responseCommentId "Fork PRs are not supported."] := by
    simp [processRequest, processRequestBody, hw, hrpv, hmsv, htkv, hppv, hpr,
      hprd, hfork]
  refine ⟨heq, ?_, ?_⟩
  · rw [heq]
    simp [List.countP_cons, isSandboxInvocation]
  · rw [heq]
    simp [List.countP_cons, isCreatePR]

/-- Witness for C7: a PR whose head lives in a fork of the base repo. -/
theorem processRequest_fork_refused_witness :
    processRequest ⟨"o", "r", 3, "alice", true, "main", none⟩
        ⟨true, 10, .ok false, .ok "anthropic/claude", .ok "tok", .ok "prompt",
          .ok ⟨"fork/r", "o/r", "feat", "sha"⟩, .ok (),
          fun _ => .error "unused", .error "unused"⟩ =
      [OrchEffect.createComment 3 "Bonk is working on it...",
       OrchEffect.updateComment 10 "Fork PRs are not supported."] :=
  (processRequest_fork_refused ⟨"o", "r", 3, "alice", true, "main", none⟩
    ⟨true, 10, .ok false, .ok "anthropic/claude", .ok "tok", .ok "prompt",
      .ok ⟨"fork/r", "o/r", "feat", "sha"⟩, .ok (),
      fun _ => .error "unused", .error "unused"⟩
    ⟨"fork/r", "o/r", "feat", "sha"⟩ rfl rfl ⟨false, rfl⟩
    ⟨"anthropic/claude", rfl⟩ ⟨"tok", rfl⟩ ⟨"prompt", rfl⟩ rfl
    (by decide)).1

end AskBonk
